import Mathlib

/-!
Verification of the job-orchestration and progressive-preview subsystem of an
image-generation web application. The job lifecycle state machine, job store,
job-manager validation and cancellation, adapter registry with local fallback,
and progressive preview assembler are embedded as executable Lean definitions;
the UploadDropzone batch-selection guard is translated from
`src/components/GenerationWorkspace.tsx` (UploadDropzone, `handleFileSelect`).
-/

namespace ImageGen

/-- Modelled from the spec: job status domain (spec section 3), five states of
which succeeded, failed and cancelled are terminal. The job store / state
machine source file (`src/lib/jobStore.ts`) is not part of the provided
sources. -/
inductive Status where
  | queued
  | processing
  | succeeded
  | failed
  | cancelled
deriving DecidableEq

/-- Terminal statuses: succeeded, failed, cancelled (spec glossary). -/
def Status.isTerminal : Status → Bool
  | .succeeded => true
  | .failed => true
  | .cancelled => true
  | _ => false

/-- Modelled from the spec: the Job record (spec section 3). The `createdAt`
and `updatedAt` wall-clock timestamps are omitted: they carry no constraint
used by any invariant. -/
structure Job where
  id : Nat
  status : Status
  progress : Nat
  previewUrls : List String
  finalUrl : Option String
  modelId : String
  errorMessage : Option String
  eta : Option Nat
deriving DecidableEq

/-- Modelled from the spec: the transition events of the job state machine
(spec section 4.1). A progress update carries the snapshot's progress value,
preview list and eta, since poll results drive transitions and the uniform
`JobSnapshot` contract carries those fields. -/
inductive Event where
  | adapterAccepted
  | progressUpdate (p : Nat) (previews : List String) (eta : Option Nat)
  | completed (finalUrl : String)
  | failed (message : String)
  | cancelRequested
deriving DecidableEq

/-- Errors the job store can report. -/
inductive StoreError where
  | notFound
  | illegalTransition
deriving DecidableEq

/-- Boolean test that `old` is an initial segment of `incoming` (the incoming
preview list extends the stored one). -/
def extendsPrev : List String → List String → Bool
  | [], _ => true
  | _ :: _, [] => false
  | a :: as, b :: bs => a == b && extendsPrev as bs

/-- Modelled from the spec: the store accepts an incoming preview list only
when it extends the stored one, otherwise it keeps the stored list (illegal
data is discarded without corrupting the record, spec section 4.1). -/
def mergePreviews (old incoming : List String) : List String :=
  if extendsPrev old incoming then incoming else old

/-- Modelled from the spec: the job store's per-record transition function
(spec section 4.1). Regressive or out-of-range progress is rejected, not
clamped (the rejection policy recommended in section 9). Terminal states
reject everything except idempotent re-application of the same terminal
event, which returns the unchanged record. -/
def applyEvent (j : Job) (e : Event) : Except StoreError Job :=
  match j.status, e with
  | .queued, .adapterAccepted => .ok { j with status := .processing }
  | .processing, .progressUpdate p previews eta =>
      if j.progress ≤ p ∧ p ≤ 100 then
        .ok { j with progress := p,
                     previewUrls := mergePreviews j.previewUrls previews,
                     eta := eta }
      else .error .illegalTransition
  | .processing, .completed url =>
      .ok { j with status := .succeeded, finalUrl := some url }
  | .queued, .failed msg =>
      .ok { j with status := .failed, errorMessage := some msg }
  | .processing, .failed msg =>
      .ok { j with status := .failed, errorMessage := some msg }
  | .queued, .cancelRequested => .ok { j with status := .cancelled }
  | .processing, .cancelRequested => .ok { j with status := .cancelled }
  | .succeeded, .completed url =>
      if j.finalUrl == some url then .ok j else .error .illegalTransition
  | .failed, .failed msg =>
      if j.errorMessage == some msg then .ok j else .error .illegalTransition
  | .cancelled, .cancelRequested => .ok j
  | _, _ => .error .illegalTransition

/-- Whether `e` is a re-application of the exact terminal event that produced
the terminal state of `j`. -/
def sameTerminalEvent (j : Job) (e : Event) : Bool :=
  match j.status, e with
  | .succeeded, .completed url => j.finalUrl == some url
  | .failed, .failed msg => j.errorMessage == some msg
  | .cancelled, .cancelRequested => true
  | _, _ => false

/-- Modelled from the spec: the in-memory job store, a list of records plus a
fresh-id counter (spec section 4.1). -/
structure JobStore where
  jobs : List Job
  nextId : Nat
deriving DecidableEq

/-- The empty store (spec section 9: empty on initialization). -/
def JobStore.empty : JobStore := ⟨[], 0⟩

/-- Modelled from the spec: `create(modelId)` returns a fresh record with
status queued and progress 0 (spec section 4.1). -/
def createJob (st : JobStore) (modelId : String) : JobStore × Job :=
  let j : Job :=
    { id := st.nextId, status := .queued, progress := 0, previewUrls := [],
      finalUrl := none, modelId := modelId, errorMessage := none, eta := none }
  (⟨st.jobs ++ [j], st.nextId + 1⟩, j)

/-- Modelled from the spec: `get(jobId)` (spec section 4.1). -/
def JobStore.get (st : JobStore) (id : Nat) : Option Job :=
  st.jobs.find? (fun j => j.id == id)

/-- Modelled from the spec: `transition(jobId, event)`, which looks a record
up by id (NotFoundError when absent), applies the state machine, and writes
the updated record back (spec section 4.1). -/
def transition (st : JobStore) (id : Nat) (e : Event) :
    Except StoreError (JobStore × Job) :=
  match st.get id with
  | none => .error .notFound
  | some j =>
    match applyEvent j e with
    | .error err => .error err
    | .ok j' =>
        .ok (⟨st.jobs.map (fun k => if k.id == id then j' else k), st.nextId⟩, j')

/-- A job record is observable when it was produced by `createJob` or by a
chain of accepted state-machine events from an observable record: only the
store mutates records, and only via the transition function (spec section 3).
-/
inductive Reachable : Job → Prop where
  | created : ∀ (st : JobStore) (m : String), Reachable (createJob st m).2
  | step : ∀ (j : Job) (e : Event) (j' : Job),
      Reachable j → applyEvent j e = .ok j' → Reachable j'

/-- The two optional-field flags of the data-model invariant (spec section 3).
-/
def urlFlags (j : Job) : Prop :=
  (j.finalUrl.isSome ↔ j.status = Status.succeeded) ∧
  (j.errorMessage.isSome ↔ j.status = Status.failed)

lemma extendsPrev_eq_append (old incoming : List String)
    (h : extendsPrev old incoming = true) : ∃ t, incoming = old ++ t := by
  induction old generalizing incoming with
  | nil => exact ⟨incoming, rfl⟩
  | cons a as ih =>
    cases incoming with
    | nil => simp [extendsPrev] at h
    | cons b bs =>
      simp only [extendsPrev, Bool.and_eq_true, beq_iff_eq] at h
      obtain ⟨t, ht⟩ := ih bs h.2
      exact ⟨t, by simp [h.1, ht]⟩

lemma mergePreviews_eq_append (old incoming : List String) :
    ∃ t, mergePreviews old incoming = old ++ t := by
  unfold mergePreviews
  split
  · rename_i h
    obtain ⟨t, ht⟩ := extendsPrev_eq_append old incoming h
    exact ⟨t, ht⟩
  · exact ⟨[], by simp⟩

lemma urlFlags_create (st : JobStore) (m : String) :
    urlFlags (createJob st m).2 := by
  simp [urlFlags, createJob]

lemma urlFlags_step (j : Job) (e : Event) (j' : Job)
    (hj : urlFlags j) (h : applyEvent j e = .ok j') : urlFlags j' := by
  rcases j with ⟨id, status, progress, previewUrls, finalUrl, modelId, errorMessage, eta⟩
  rcases hj with ⟨hf, he⟩
  cases status <;> cases e <;>
    simp_all [applyEvent, urlFlags] <;>
    first
    | (subst h; simp_all)
    | (split at h <;> simp_all <;> subst h <;> simp_all)

/-- Whitespace trim as performed by `prompt.trim()` in the source
(`GenerationWorkspace.tsx`), implemented structurally over the character
list. -/
def trimWS (s : String) : String :=
  ⟨((s.data.dropWhile Char.isWhitespace).reverse.dropWhile Char.isWhitespace).reverse⟩

/-- Modelled from the spec: generation parameters (spec section 3). The
numeric strength field is carried as a natural scaled by 100; no claim
constrains it. -/
structure GenerationParams where
  prompt : String
  negativePrompt : Option String
  mode : String
  size : String
  aspectRatio : String
  strength : Nat
deriving DecidableEq

/-- Modelled from the spec: edit parameters — GenerationParams plus a source
image reference and a mask reference (spec section 3). The references are
optional at the type level so that their required-ness is a checked
validation, as in `handleEdit` of `GenerationWorkspace.tsx`. -/
structure EditParams where
  prompt : String
  negativePrompt : Option String
  mode : String
  size : String
  aspectRatio : String
  strength : Nat
  imageUrl : Option String
  maskUrl : Option String
deriving DecidableEq

/-- Modelled from the spec: the error taxonomy relevant to the manager
contract (spec section 7). -/
inductive AppError where
  | validationError
  | adapterError (message : String)
  | notFoundError
deriving DecidableEq

/-- Modelled from the spec: an adapter is either the local deterministic
adapter or a real-provider adapter holding its credential (spec section 4.2;
README lists LocalMockAdapter and provider adapters). -/
inductive Adapter where
  | localAdapter
  | providerAdapter (providerId : String) (credential : String)
deriving DecidableEq

/-- The model identifier an adapter stamps on the jobs it originates. -/
def Adapter.modelId : Adapter → String
  | .localAdapter => "local-deterministic"
  | .providerAdapter providerId _ => providerId

/-- Modelled from the spec: provider configuration — per-provider credentials
supplied via environment values (spec section 6). -/
structure Config where
  credentials : String → Option String

/-- Modelled from the spec: the Adapter Registry resolves a provider
identifier to an adapter instance, falling back to the local deterministic
adapter when no credentials are present for the requested provider (spec
section 4.2). -/
def resolve (cfg : Config) (requested : String) : Adapter :=
  match cfg.credentials requested with
  | some cred => .providerAdapter requested cred
  | none => .localAdapter

/-- Modelled from the spec: `startGeneration` validates the params first —
prompt required and non-empty — failing fast with ValidationError and
creating no job record; on success it creates a queued record stamped with
the resolved adapter's model id (spec section 4.3). The returned store is
the input store unchanged on validation failure. -/
def startGeneration (a : Adapter) (st : JobStore) (p : GenerationParams) :
    JobStore × Except AppError Job :=
  if trimWS p.prompt == "" then (st, .error .validationError)
  else
    let r := createJob st a.modelId
    (r.1, .ok r.2)

/-- Modelled from the spec: `startEditing` requires image, mask and a
non-empty prompt, failing fast with ValidationError and creating no job
record otherwise (spec section 4.3; `handleEdit` in
`GenerationWorkspace.tsx` guards the same three inputs). -/
def startEditing (a : Adapter) (st : JobStore) (p : EditParams) :
    JobStore × Except AppError Job :=
  if p.imageUrl.isNone || p.maskUrl.isNone || trimWS p.prompt == "" then
    (st, .error .validationError)
  else
    let r := createJob st a.modelId
    (r.1, .ok r.2)

/-- Modelled from the spec: the record-level effect of `cancelJob` — a no-op
on an already-terminal record, otherwise the cancel-requested transition
(spec section 4.3: calling it twice, or on an already-terminal job, is a
no-op). -/
def cancelJob (j : Job) : Job :=
  if j.status.isTerminal then j
  else
    match applyEvent j .cancelRequested with
    | .ok j' => j'
    | .error _ => j

/-- Modelled from the spec: the uniform JobSnapshot contract every adapter
normalizes to (spec section 4.2). -/
structure JobSnapshot where
  status : Status
  progress : Nat
  previewUrls : List String
  finalUrl : Option String
  errorMessage : Option String
  eta : Option Nat
deriving DecidableEq

/-- Modelled from the spec: the caller-visible projection the Progressive
Preview Assembler maintains (spec section 4.4). `finalImage` remembers an
observed final url so the current image can never fall back to a preview. -/
structure ProgressiveState where
  currentImage : Option String
  previewImages : List String
  finalImage : Option String
  progress : Nat
  eta : Option Nat
  isLoading : Bool
deriving DecidableEq

/-- The initial assembler projection, before any snapshot. -/
def ProgressiveState.initial : ProgressiveState :=
  { currentImage := none, previewImages := [], finalImage := none,
    progress := 0, eta := none, isLoading := true }

/-- Order-preserving deduplicating append: each incoming reference is
appended only when not already present (spec section 4.4). -/
def dedupAppend (acc incoming : List String) : List String :=
  incoming.foldl (fun l u => if u ∈ l then l else l ++ [u]) acc

/-- Keep an already-observed final url; adopt a newly reported one. -/
def pickFinal (snapFinal stateFinal : Option String) : Option String :=
  match snapFinal with
  | some u => some u
  | none => stateFinal

/-- Current best image: the final url when observed, otherwise the latest
accumulated preview (spec section 4.4). -/
def pickCurrent (final : Option String) (previews : List String) :
    Option String :=
  match final with
  | some u => some u
  | none => previews.getLast?

/-- Modelled from the spec: the assembler merge of one snapshot into the
projection (spec section 4.4): deduplicated order-preserving union of
previews, progress and eta passed through from the latest snapshot, loading
while queued or processing. -/
def merge (s : ProgressiveState) (snap : JobSnapshot) : ProgressiveState :=
  let previews := dedupAppend s.previewImages snap.previewUrls
  let final := pickFinal snap.finalUrl s.finalImage
  { currentImage := pickCurrent final previews,
    previewImages := previews,
    finalImage := final,
    progress := snap.progress,
    eta := snap.eta,
    isLoading := snap.status == Status.queued || snap.status == Status.processing }

/-- Fidelity rank of the assembler's current image: the number of previews it
supersedes, plus one once a final url has been observed. Previews are ordered
low-to-high fidelity, so a larger rank is a higher-fidelity current image. -/
def rank (s : ProgressiveState) : Nat :=
  s.previewImages.length + (if s.finalImage.isSome then 1 else 0)

/-- Apply a sequence of state-machine events to a record, stopping at the
first rejection. -/
def runEvents (j : Job) (es : List Event) : Except StoreError Job :=
  es.foldlM applyEvent j

/-- Modelled from the spec: the event sequence the local deterministic
adapter produces — a fixed number of synthetic progress steps that always
ends in success (spec sections 4.2 and 8, Scenario A). -/
def localRunEvents : List Event :=
  [.adapterAccepted,
   .progressUpdate 25 ["local-preview-1"] (some 3),
   .progressUpdate 50 ["local-preview-1", "local-preview-2"] (some 2),
   .progressUpdate 75 ["local-preview-1", "local-preview-2", "local-preview-3"] (some 1),
   .progressUpdate 100 ["local-preview-1", "local-preview-2", "local-preview-3"] (some 0),
   .completed "local-final"]

/-- A selected file, as far as the dropzone logic inspects it
(`UploadDropzone` in `GenerationWorkspace.tsx`). -/
structure UFile where
  name : String
  size : Nat
deriving DecidableEq

/-- An entry of the dropzone's uploaded-files list, as appended synchronously
by `processFile` (`UploadDropzone` in `GenerationWorkspace.tsx`); the
timestamp-random id is modelled deterministically from the file name. -/
structure UploadedFile where
  id : String
  file : UFile
  url : String
  progress : Nat
deriving DecidableEq

/-- Synchronous effect of `processFile` on the uploaded-files list: an
invalid file is dropped (after a toast), a valid one is appended with an
initial uploading entry (`GenerationWorkspace.tsx`, `processFile`). -/
def processFileSync (valid : UFile → Bool) (fs : List UploadedFile)
    (f : UFile) : List UploadedFile :=
  if valid f then
    fs ++ [{ id := "file-" ++ f.name, file := f, url := "", progress := 0 }]
  else fs

/-- Translation of `handleFileSelect` (`GenerationWorkspace.tsx`, lines
433-453): a null file list is ignored; when the batch is larger than the
remaining slots (`maxFiles` minus files already uploaded, computed over the
integers as in JavaScript) the whole batch is rejected; otherwise every file
of the batch is processed. -/
def handleFileSelect (valid : UFile → Bool) (maxFiles : Nat)
    (uploadedFiles : List UploadedFile) (files : Option (List UFile)) :
    List UploadedFile :=
  match files with
  | none => uploadedFiles
  | some fileArray =>
    let remainingSlots : Int := (maxFiles : Int) - uploadedFiles.length
    if (fileArray.length : Int) > remainingSlots then uploadedFiles
    else fileArray.foldl (processFileSync valid) uploadedFiles

lemma dedupAppend_cons (acc : List String) (u : String) (N : List String) :
    dedupAppend acc (u :: N) =
      dedupAppend (if u ∈ acc then acc else acc ++ [u]) N := by
  simp [dedupAppend]

lemma dedupAppend_eq_append :
    ∀ (N acc : List String), ∃ t, dedupAppend acc N = acc ++ t := by
  intro N
  induction N with
  | nil => exact fun acc => ⟨[], by simp [dedupAppend]⟩
  | cons u N ih =>
    intro acc
    rw [dedupAppend_cons]
    by_cases h : u ∈ acc
    · obtain ⟨t, ht⟩ := ih acc
      exact ⟨t, by rw [if_pos h, ht]⟩
    · obtain ⟨t, ht⟩ := ih (acc ++ [u])
      exact ⟨u :: t, by rw [if_neg h, ht]; simp⟩

lemma mem_dedupAppend_left (a : String) (acc N : List String) (h : a ∈ acc) :
    a ∈ dedupAppend acc N := by
  obtain ⟨t, ht⟩ := dedupAppend_eq_append N acc
  rw [ht]
  exact List.mem_append_left _ h

lemma mem_dedupAppend_incoming :
    ∀ (N acc : List String) (a : String), a ∈ N → a ∈ dedupAppend acc N := by
  intro N
  induction N with
  | nil => intro acc a h; cases h
  | cons u N ih =>
    intro acc a h
    rw [dedupAppend_cons]
    rcases List.mem_cons.mp h with rfl | h'
    · by_cases hm : a ∈ acc
      · rw [if_pos hm]
        exact mem_dedupAppend_left a acc N hm
      · rw [if_neg hm]
        exact mem_dedupAppend_left a _ N (by simp)
    · split <;> exact ih _ a h'

lemma dedupAppend_absorb :
    ∀ (N acc : List String), (∀ a ∈ N, a ∈ acc) → dedupAppend acc N = acc := by
  intro N
  induction N with
  | nil => intro acc _; rfl
  | cons u N ih =>
    intro acc h
    rw [dedupAppend_cons, if_pos (h u (by simp))]
    exact ih acc (fun a ha => h a (by simp [ha]))

lemma dedupAppend_idem (P N : List String) :
    dedupAppend (dedupAppend P N) N = dedupAppend P N :=
  dedupAppend_absorb N _ (fun a ha => mem_dedupAppend_incoming N P a ha)

lemma dedupAppend_nodup :
    ∀ (N acc : List String), acc.Nodup → (dedupAppend acc N).Nodup := by
  intro N
  induction N with
  | nil => intro acc h; exact h
  | cons u N ih =>
    intro acc h
    rw [dedupAppend_cons]
    split
    · exact ih acc h
    · rename_i hm
      exact ih _ (by simp [List.nodup_append, h, hm])

lemma pickFinal_idem (f g : Option String) :
    pickFinal f (pickFinal f g) = pickFinal f g := by
  cases f <;> rfl

lemma pickFinal_rank_le (f g : Option String) :
    (if g.isSome then (1 : Nat) else 0) ≤
      (if (pickFinal f g).isSome then 1 else 0) := by
  cases f <;> simp [pickFinal] <;> split <;> simp

/-- Fixtures used by the witness theorems. -/
def jobQueued : Job :=
  { id := 0, status := .queued, progress := 0, previewUrls := [],
    finalUrl := none, modelId := "local-deterministic", errorMessage := none,
    eta := none }

def jobProcessing : Job := { jobQueued with status := .processing }

def jobSucceeded : Job :=
  { jobQueued with
    status := .succeeded,
    progress := 100,
    finalUrl := some "local-final" }

def snapMid : JobSnapshot :=
  { status := .processing, progress := 40,
    previewUrls := ["local-preview-1"], finalUrl := none,
    errorMessage := none, eta := some 3 }

def cfgNone : Config := ⟨fun _ => none⟩

def pCat : GenerationParams :=
  { prompt := "a cat", negativePrompt := none, mode := "add-girlfriend",
    size := "1024x1024", aspectRatio := "1:1", strength := 80 }

def pNoMask : EditParams :=
  { prompt := "a cat", negativePrompt := none, mode := "add-girlfriend",
    size := "1024x1024", aspectRatio := "1:1", strength := 80,
    imageUrl := some "blob:img", maskUrl := none }

def pEmpty : GenerationParams := { pCat with prompt := "   " }

def ufOld : UploadedFile :=
  { id := "file-old.png", file := ⟨"old.png", 100⟩, url := "", progress := 100 }

def fileA : UFile := ⟨"a.png", 10⟩

def fileB : UFile := ⟨"b.png", 20⟩

/-- Claim C1: for every job and every pair of successive observations of its
record — the two sides of any accepted transition, poll-driven, cancel or
otherwise — the progress value is non-decreasing. -/
theorem transition_progress_monotone (j : Job) (e : Event) (j' : Job)
    (h : applyEvent j e = Except.ok j') : j.progress ≤ j'.progress := by
  unfold applyEvent at h
  split at h <;> try split at h
  all_goals try exact Except.noConfusion h
  all_goals injection h with h
  all_goals subst h
  all_goals simp
  all_goals omega

theorem transition_progress_monotone_witness :
    applyEvent jobQueued Event.adapterAccepted = Except.ok jobProcessing ∧
    jobQueued.progress ≤ jobProcessing.progress :=
  ⟨rfl, transition_progress_monotone jobQueued Event.adapterAccepted
    jobProcessing rfl⟩

/-- Claim C2: a job in a terminal status rejects every further transition
event, except that re-applying the very terminal event that produced the
state returns the unchanged record instead of an error. -/
theorem terminal_rejects_except_idempotent (j : Job) (e : Event)
    (hT : j.status.isTerminal = true) :
    applyEvent j e =
      (if sameTerminalEvent j e then Except.ok j
       else Except.error StoreError.illegalTransition) := by
  rcases j with ⟨id, status, progress, previewUrls, finalUrl, modelId,
    errorMessage, eta⟩
  cases status <;> simp [Status.isTerminal] at hT <;> cases e <;> rfl

theorem terminal_rejects_except_idempotent_witness :
    jobSucceeded.status.isTerminal = true ∧
    applyEvent jobSucceeded (Event.completed "local-final") =
      (if sameTerminalEvent jobSucceeded (Event.completed "local-final") then
        Except.ok jobSucceeded
       else Except.error StoreError.illegalTransition) :=
  ⟨rfl, terminal_rejects_except_idempotent jobSucceeded
    (Event.completed "local-final") rfl⟩

/-- Claim C3: for every observable job record, finalUrl is set exactly when
the status is succeeded, and errorMessage is set exactly when the status is
failed. -/
theorem reachable_url_flags (j : Job) (h : Reachable j) :
    (j.finalUrl.isSome ↔ j.status = Status.succeeded) ∧
    (j.errorMessage.isSome ↔ j.status = Status.failed) := by
  induction h with
  | created st m => exact urlFlags_create st m
  | step j e j' _ hstep ih => exact urlFlags_step j e j' ih hstep

theorem reachable_url_flags_witness :
    Reachable (createJob JobStore.empty "local-deterministic").2 ∧
    (((createJob JobStore.empty "local-deterministic").2.finalUrl.isSome ↔
      (createJob JobStore.empty "local-deterministic").2.status = Status.succeeded) ∧
     ((createJob JobStore.empty "local-deterministic").2.errorMessage.isSome ↔
      (createJob JobStore.empty "local-deterministic").2.status = Status.failed)) :=
  ⟨Reachable.created JobStore.empty "local-deterministic",
   reachable_url_flags (createJob JobStore.empty "local-deterministic").2
     (Reachable.created JobStore.empty "local-deterministic")⟩

/-- Claim C4: every accepted transition leaves the earlier previewUrls
sequence as an initial segment of the later one — entries are only appended,
never removed or reordered. -/
theorem transition_previews_append_only (j : Job) (e : Event) (j' : Job)
    (h : applyEvent j e = Except.ok j') :
    ∃ t, j'.previewUrls = j.previewUrls ++ t := by
  unfold applyEvent at h
  split at h <;> try split at h
  all_goals try exact Except.noConfusion h
  all_goals injection h with h
  all_goals subst h
  all_goals simpa using mergePreviews_eq_append j.previewUrls _

theorem transition_previews_append_only_witness :
    applyEvent jobProcessing
      (Event.progressUpdate 25 ["local-preview-1"] (some 3)) =
      Except.ok { jobProcessing with
                  progress := 25,
                  previewUrls := ["local-preview-1"],
                  eta := some 3 } ∧
    ∃ t, ({ jobProcessing with
            progress := 25,
            previewUrls := ["local-preview-1"],
            eta := some 3 } : Job).previewUrls =
          jobProcessing.previewUrls ++ t :=
  ⟨rfl, transition_previews_append_only jobProcessing
    (Event.progressUpdate 25 ["local-preview-1"] (some 3)) _ rfl⟩

/-- Claim C5: startGeneration with a missing or empty prompt fails fast with
a ValidationError, creates no job record, and leaves the job store
unchanged. -/
theorem startGeneration_empty_prompt (a : Adapter) (st : JobStore)
    (p : GenerationParams) (h : trimWS p.prompt = "") :
    startGeneration a st p = (st, Except.error AppError.validationError) := by
  simp [startGeneration, h]

theorem startGeneration_empty_prompt_witness :
    trimWS pEmpty.prompt = "" ∧
    startGeneration Adapter.localAdapter JobStore.empty pEmpty =
      (JobStore.empty, Except.error AppError.validationError) :=
  ⟨rfl, startGeneration_empty_prompt Adapter.localAdapter JobStore.empty
    pEmpty rfl⟩

/-- Claim C6: startEditing lacking the source image, the mask, or a non-empty
prompt fails fast with a ValidationError and creates no job record, leaving
the job store unchanged. -/
theorem startEditing_missing_inputs (a : Adapter) (st : JobStore)
    (p : EditParams)
    (h : p.imageUrl = none ∨ p.maskUrl = none ∨ trimWS p.prompt = "") :
    startEditing a st p = (st, Except.error AppError.validationError) := by
  rcases h with h | h | h <;> simp [startEditing, h]

theorem startEditing_missing_inputs_witness :
    (pNoMask.imageUrl = none ∨ pNoMask.maskUrl = none ∨
      trimWS pNoMask.prompt = "") ∧
    startEditing Adapter.localAdapter JobStore.empty pNoMask =
      (JobStore.empty, Except.error AppError.validationError) :=
  ⟨Or.inr (Or.inl rfl),
   startEditing_missing_inputs Adapter.localAdapter JobStore.empty pNoMask
     (Or.inr (Or.inl rfl))⟩

/-- Claim C7: cancelJob is idempotent — a second call produces the same
record as the first, and on an already-terminal job it is a no-op rather
than an error. -/
theorem cancelJob_idempotent (j : Job) :
    cancelJob (cancelJob j) = cancelJob j ∧
    (j.status.isTerminal = true → cancelJob j = j) := by
  rcases j with ⟨id, status, progress, previewUrls, finalUrl, modelId,
    errorMessage, eta⟩
  cases status <;> simp [cancelJob, applyEvent, Status.isTerminal]

theorem cancelJob_idempotent_witness :
    jobSucceeded.status.isTerminal = true ∧
    cancelJob (cancelJob jobSucceeded) = cancelJob jobSucceeded ∧
    cancelJob jobSucceeded = jobSucceeded :=
  ⟨rfl, (cancelJob_idempotent jobSucceeded).1,
   (cancelJob_idempotent jobSucceeded).2 rfl⟩

/-- Claim C8: the assembler merge is idempotent over snapshots — re-merging a
duplicate snapshot changes nothing and never re-appends an already-seen
preview reference — and the fidelity rank of the current image never
decreases across a merge. -/
theorem merge_idempotent_monotone (s : ProgressiveState) (snap : JobSnapshot) :
    merge (merge s snap) snap = merge s snap ∧
    rank s ≤ rank (merge s snap) ∧
    (s.previewImages.Nodup → (merge s snap).previewImages.Nodup) := by
  refine ⟨?_, ?_, ?_⟩
  · simp only [merge]
    rw [dedupAppend_idem, pickFinal_idem]
  · simp only [rank, merge]
    apply Nat.add_le_add
    · obtain ⟨t, ht⟩ := dedupAppend_eq_append snap.previewUrls s.previewImages
      rw [ht]
      simp
    · exact pickFinal_rank_le snap.finalUrl s.finalImage
  · intro h
    simp only [merge]
    exact dedupAppend_nodup snap.previewUrls s.previewImages h

theorem merge_idempotent_monotone_witness :
    merge (merge ProgressiveState.initial snapMid) snapMid =
      merge ProgressiveState.initial snapMid ∧
    rank ProgressiveState.initial ≤
      rank (merge ProgressiveState.initial snapMid) ∧
    ProgressiveState.initial.previewImages.Nodup ∧
    (merge ProgressiveState.initial snapMid).previewImages.Nodup :=
  ⟨(merge_idempotent_monotone ProgressiveState.initial snapMid).1,
   (merge_idempotent_monotone ProgressiveState.initial snapMid).2.1,
   by decide,
   (merge_idempotent_monotone ProgressiveState.initial snapMid).2.2
     (by decide)⟩

/-- Claim C9: when no credentials are configured for the requested provider,
the registry resolves the local deterministic adapter instead of failing,
and a generation submitted through that adapter succeeds deterministically:
the local adapter's fixed event sequence drives the created job to status
succeeded with progress 100 and a final url. -/
theorem registry_fallback_succeeds (cfg : Config) (requested : String)
    (h : cfg.credentials requested = none) (st : JobStore)
    (p : GenerationParams) (hp : trimWS p.prompt ≠ "") :
    resolve cfg requested = Adapter.localAdapter ∧
    startGeneration (resolve cfg requested) st p =
      ((createJob st "local-deterministic").1,
       Except.ok (createJob st "local-deterministic").2) ∧
    runEvents (createJob st "local-deterministic").2 localRunEvents =
      Except.ok
        { id := st.nextId, status := Status.succeeded, progress := 100,
          previewUrls := ["local-preview-1", "local-preview-2", "local-preview-3"],
          finalUrl := some "local-final", modelId := "local-deterministic",
          errorMessage := none, eta := some 0 } := by
  have hres : resolve cfg requested = Adapter.localAdapter := by
    simp [resolve, h]
  have hb : (trimWS p.prompt == "") = false := by
    simpa using hp
  refine ⟨hres, ?_, ?_⟩
  · rw [hres]
    simp [startGeneration, hb, Adapter.modelId]
  · rfl

theorem registry_fallback_succeeds_witness :
    cfgNone.credentials "gemini" = none ∧ trimWS pCat.prompt ≠ "" ∧
    (resolve cfgNone "gemini" = Adapter.localAdapter ∧
     startGeneration (resolve cfgNone "gemini") JobStore.empty pCat =
       ((createJob JobStore.empty "local-deterministic").1,
        Except.ok (createJob JobStore.empty "local-deterministic").2) ∧
     runEvents (createJob JobStore.empty "local-deterministic").2
         localRunEvents =
       Except.ok
         { id := JobStore.empty.nextId, status := Status.succeeded,
           progress := 100,
           previewUrls := ["local-preview-1", "local-preview-2", "local-preview-3"],
           finalUrl := some "local-final", modelId := "local-deterministic",
           errorMessage := none, eta := some 0 }) :=
  ⟨rfl, by decide,
   registry_fallback_succeeds cfgNone "gemini" rfl JobStore.empty pCat
     (by decide)⟩

/-- Claim C10: when a selected batch exceeds the remaining upload slots
(maxFiles minus files already uploaded), handleFileSelect rejects the whole
batch and processes none of its files: the uploaded-files list is returned
unchanged, never a partially accepted prefix. -/
theorem handleFileSelect_rejects_overflow (valid : UFile → Bool)
    (maxFiles : Nat) (uploadedFiles : List UploadedFile)
    (fileArray : List UFile)
    (h : (fileArray.length : Int) > (maxFiles : Int) - uploadedFiles.length) :
    handleFileSelect valid maxFiles uploadedFiles (some fileArray) =
      uploadedFiles := by
  simp [handleFileSelect, h]

theorem handleFileSelect_rejects_overflow_witness :
    (([fileA, fileB].length : Int) >
      (2 : Int) - ([ufOld] : List UploadedFile).length) ∧
    handleFileSelect (fun _ => true) 2 [ufOld] (some [fileA, fileB]) =
      [ufOld] :=
  ⟨by decide,
   handleFileSelect_rejects_overflow (fun _ => true) 2 [ufOld] [fileA, fileB]
     (by decide)⟩

end ImageGen
